import Mathlib

/-!
Shallow embedding of cmd/mountlib/rc.go: a registry of mount backends
(mountFns), a directory of live mounts (liveMounts), and the four rc
operations mountRc, unMountRc, mountTypesRc, listMountsRc.

Go maps are modelled as association lists with overwrite-insert and
delete; errors are strings; time.Now() reads a clock carried in the
state.  Teardown capabilities (UnmountFn) carry an identifier and the
result they return when invoked; every invocation is appended to a call
log in the state, so that "invoked exactly once" is statable.  Calling a
nil Go function value panics; this is modelled by the RcResult.nilPanic
outcome.  Accesses to the backend registry and its mutex (mountFnsMutex)
are additionally recorded as an event trace, so that the lock discipline
of the registry is statable.
-/

namespace Mountlib

/-- Errors are plain message strings, as produced by errors.New in the Go code. -/
abbrev Err := String

/-- Teardown capability returned by a backend mount call (Go type UnmountFn =
func() error).  The id identifies the closure; result is the error value an
invocation returns (none = nil = success). -/
structure UnmountFn where
  id : Nat
  result : Option Err
deriving DecidableEq, Repr

/-- Resolved remote, as produced by rc.GetFs.  Modelled from the spec: the
source resolver is an external collaborator producing "an object with a name
and a display identity"; only Name() is consumed by this file. -/
structure Fs where
  name : String
deriving DecidableEq, Repr

/-- Backend mount capability (Go type MountFn).  run models the call
mountFns[mountType](fdst, mountPoint), returning the unmount function (which
may be nil) and the error value; the id identifies the capability. -/
structure MountFn where
  id : Nat
  run : Fs → String → Option UnmountFn × Option Err

/-- MountInfo record stored in liveMounts, mirroring the Go struct: the
unexported unmountFn plus the JSON-visible fields MountPoint, MountedOn, Fs. -/
structure MountInfo where
  unmountFn : Option UnmountFn
  mountPoint : String
  mountedOn : Nat
  fsName : String
deriving DecidableEq, Repr

/-- Association-list lookup, modelling Go map indexing m[k]. -/
def mapLookup {α : Type} (m : List (String × α)) (k : String) : Option α :=
  match m with
  | [] => none
  | (k1, v) :: rest => if k1 = k then some v else mapLookup rest k

/-- Association-list insert with overwrite, modelling Go map assignment m[k] = v. -/
def mapInsert {α : Type} (m : List (String × α)) (k : String) (v : α) :
    List (String × α) :=
  match m with
  | [] => [(k, v)]
  | (k1, v1) :: rest =>
    if k1 = k then (k, v) :: rest else (k1, v1) :: mapInsert rest k v

/-- Association-list delete, modelling Go delete(m, k). -/
def mapErase {α : Type} (m : List (String × α)) (k : String) :
    List (String × α) :=
  match m with
  | [] => []
  | (k1, v1) :: rest =>
    if k1 = k then mapErase rest k else (k1, v1) :: mapErase rest k

/-- Keys of an association list, modelling ranging over a Go map's keys. -/
def mapKeys {α : Type} (m : List (String × α)) : List String :=
  m.map (fun kv => kv.1)

/-- Package state: the two guarded maps of rc.go, the clock read by
time.Now(), and the log of teardown-capability invocations (by id). -/
structure State where
  mountFns : List (String × MountFn)
  liveMounts : List (String × MountInfo)
  now : Nat
  calls : List Nat

/-- Initial package state: both maps start empty, as in the var block of rc.go. -/
def initState : State :=
  { mountFns := [], liveMounts := [], now := 0, calls := [] }

/-- Outcome of an rc operation: success, a returned error, or a runtime panic
(the latter models calling a nil Go function value). -/
inductive RcResult where
  | ok
  | err (e : Err)
  | nilPanic
deriving DecidableEq, Repr

/-- Events touching the backend registry mountFns and its mutex
mountFnsMutex, recorded in program order by each operation. -/
inductive Ev where
  | lockFns
  | unlockFns
  | readFns (k : String)
  | writeFns (k : String)
  | rangeFns
  | invokeBackend (k : String)
deriving DecidableEq, Repr

/-- AddRc registers a mount capability under a name, overwriting any previous
entry; the map write happens between Lock and Unlock of mountFnsMutex. -/
def AddRc (mountUtilName : String) (mountFunction : MountFn) (s : State) :
    State × List Ev :=
  ({ s with mountFns := mapInsert s.mountFns mountUtilName mountFunction },
   [Ev.lockFns, Ev.writeFns mountUtilName, Ev.unlockFns])

/-- Input parameters of an rc call (rc.Params), restricted to the
string-valued keys this file reads. -/
abbrev Params := List (String × String)

/-- Modelled from the spec: rc.Params.GetString (external fs/rc package)
returns the string under the key, or an error when the key is absent. -/
def getString (p : Params) (k : String) : Except Err String :=
  match mapLookup p k with
  | some v => Except.ok v
  | none => Except.error ("Didn't find key " ++ k ++ " in input")

/-- Error message returned by mountRc when the mount type is not registered. -/
def invalidBackendMsg : Err :=
  "Mount Option specified is not registered, or is invalid"

/-- Error message returned by performUnMount when no mount exists at the path. -/
def notFoundMsg : Err := "mount not found"

/-- Fallback mount-type selection of mountRc: probe mountFns for "mount",
then "cmount", then "mount2"; empty selection when none of the three hit. -/
def resolveMountType (fns : List (String × MountFn)) : String :=
  if (mapLookup fns "mount").isSome then "mount"
  else if (mapLookup fns "cmount").isSome then "cmount"
  else if (mapLookup fns "mount2").isSome then "mount2"
  else ""

/-- Registry reads performed by the fallback probe chain (short-circuit: a
probe only happens when the previous ones found nothing). -/
def resolveTrace (fns : List (String × MountFn)) : List Ev :=
  if (mapLookup fns "mount").isSome then [Ev.readFns "mount"]
  else if (mapLookup fns "cmount").isSome then
    [Ev.readFns "mount", Ev.readFns "cmount"]
  else [Ev.readFns "mount", Ev.readFns "cmount", Ev.readFns "mount2"]

/-- Mount type used by mountRc: the mountType parameter when present and
nonempty, otherwise the fallback selection (on a GetString error the Go
string is left at its zero value "" and the fallback also runs). -/
def mountRcType (p : Params) (s : State) : String :=
  match getString p "mountType" with
  | Except.error _ => resolveMountType s.mountFns
  | Except.ok t => if t = "" then resolveMountType s.mountFns else t

/-- Registry reads performed by mountRc while choosing the mount type. -/
def mountRcTypeTrace (p : Params) (s : State) : List Ev :=
  match getString p "mountType" with
  | Except.error _ => resolveTrace s.mountFns
  | Except.ok t => if t = "" then resolveTrace s.mountFns else []

/-- mountRc (rc path mount/mount): read mountPoint, choose the mount type,
resolve the fs, and when the type is registered invoke the backend and
unconditionally store a MountInfo record at the mount point — even when the
backend returned an error, in which case that error is returned.  The trace
records every mountFns access; mountRc never touches mountFnsMutex.  The fs
resolver rc.GetFs is external and passed in as getFs. -/
def mountRc (getFs : Params → Except Err Fs) (p : Params) (s : State) :
    RcResult × State × List Ev :=
  match getString p "mountPoint" with
  | Except.error e => (RcResult.err e, s, [])
  | Except.ok mountPoint =>
    match getFs p with
    | Except.error e => (RcResult.err e, s, mountRcTypeTrace p s)
    | Except.ok fdst =>
      match mapLookup s.mountFns (mountRcType p s) with
      | some fn =>
        let res := fn.run fdst mountPoint
        let info : MountInfo :=
          { unmountFn := res.1, mountPoint := mountPoint,
            mountedOn := s.now, fsName := fdst.name }
        let s1 : State :=
          { s with liveMounts := mapInsert s.liveMounts mountPoint info }
        let tr := mountRcTypeTrace p s ++
          [Ev.readFns (mountRcType p s), Ev.readFns (mountRcType p s),
           Ev.invokeBackend (mountRcType p s)]
        match res.2 with
        | some e => (RcResult.err e, s1, tr)
        | none => (RcResult.ok, s1, tr)
      | none =>
        (RcResult.err invalidBackendMsg, s,
         mountRcTypeTrace p s ++ [Ev.readFns (mountRcType p s)])

/-- performUnMount: under liveMountsMutex, look up the record at the mount
point; when absent return the not-found error; when present invoke the stored
unmountFn (with no nil check — a nil capability is a nil-function call, i.e.
a panic), return its error leaving the record in place, or on success delete
the record. -/
def performUnMount (mountPoint : String) (s : State) : RcResult × State :=
  match mapLookup s.liveMounts mountPoint with
  | some mountInfo =>
    match mountInfo.unmountFn with
    | none => (RcResult.nilPanic, s)
    | some f =>
      let s1 : State := { s with calls := s.calls ++ [f.id] }
      match f.result with
      | some e => (RcResult.err e, s1)
      | none =>
        (RcResult.ok,
         { s1 with liveMounts := mapErase s1.liveMounts mountPoint })
  | none => (RcResult.err notFoundMsg, s)

/-- unMountRc (rc path mount/unmount): read mountPoint and delegate to
performUnMount, passing its error through. -/
def unMountRc (p : Params) (s : State) : RcResult × State :=
  match getString p "mountPoint" with
  | Except.error e => (RcResult.err e, s)
  | Except.ok mountPoint => performUnMount mountPoint s

/-- JSON-visible projection of a MountInfo (the unexported unmountFn is not
serialized): fields MountPoint, MountedOn, Fs. -/
structure MountPublic where
  mountPoint : String
  mountedOn : Nat
  fs : String
deriving DecidableEq, Repr

/-- Projection of a stored record to its serialized fields. -/
def MountInfo.public (m : MountInfo) : MountPublic :=
  { mountPoint := m.mountPoint, mountedOn := m.mountedOn, fs := m.fsName }

/-- Values appearing in an rc result map. -/
inductive OutVal where
  | strs (xs : List String)
  | mounts (xs : List MountPublic)
deriving DecidableEq, Repr

/-- Result map of an rc call: named fields to values. -/
abbrev OutParams := List (String × OutVal)

/-- Lexicographic comparison of character sequences, by code point: the
order sort.Strings sorts by. -/
def lexLe (a b : List Char) : Bool :=
  match a, b with
  | [], _ => true
  | _ :: _, [] => false
  | c :: cs, d :: ds =>
    if c.toNat < d.toNat then true
    else if d.toNat < c.toNat then false
    else lexLe cs ds

/-- Lexicographic order on strings. -/
def strLe (a b : String) : Bool := lexLe a.data b.data

/-- Lexicographic order on strings, as a relation. -/
def strLeR (a b : String) : Prop := strLe a b = true

instance strLeR.decRel : DecidableRel strLeR := by
  intro a b
  unfold strLeR
  infer_instance

/-- Lexicographic string sort, modelling sort.Strings. -/
def sortStrings (xs : List String) : List String :=
  List.insertionSort strLeR xs

/-- mountTypesRc (rc path mount/types): collect the registered names (ranging
over mountFns under its mutex), sort them, and return them under the result
field mountTypes; the error returned is always nil. -/
def mountTypesRc (s : State) : OutParams × Option Err × List Ev :=
  ([("mountTypes", OutVal.strs (sortStrings (mapKeys s.mountFns)))],
   none,
   [Ev.lockFns, Ev.rangeFns, Ev.unlockFns])

/-- listMountsRc (rc path mount/listmounts): snapshot the liveMounts records
(under liveMountsMutex) and return them under the result field mountPoints;
the error returned is always nil.  Records are given in their serialized
projection. -/
def listMountsRc (s : State) : OutParams × Option Err :=
  ([("mountPoints",
     OutVal.mounts (s.liveMounts.map (fun kv => kv.2.public)))],
   none)

/-- Lock discipline demanded of a registry trace: every mountFns access
(read, write, range) happens while mountFnsMutex is held, and no backend
invocation happens while it is held.  The flag is the lock state. -/
def locksRespected (held : Bool) (t : List Ev) : Bool :=
  match t with
  | [] => true
  | Ev.lockFns :: rest => locksRespected true rest
  | Ev.unlockFns :: rest => locksRespected false rest
  | Ev.readFns _ :: rest => held && locksRespected held rest
  | Ev.writeFns _ :: rest => held && locksRespected held rest
  | Ev.rangeFns :: rest => held && locksRespected held rest
  | Ev.invokeBackend _ :: rest => (!held) && locksRespected held rest

/-! Basic lemmas about the map model. -/

theorem mapLookup_insert_self {α : Type} (m : List (String × α)) (k : String)
    (v : α) : mapLookup (mapInsert m k v) k = some v := by
  induction m with
  | nil => simp [mapInsert, mapLookup]
  | cons hd tl ih =>
    obtain ⟨k1, v1⟩ := hd
    by_cases h : k1 = k
    · simp [mapInsert, mapLookup, h]
    · simp [mapInsert, mapLookup, h, ih]

theorem lexLe_total (a : List Char) :
    ∀ b : List Char, lexLe a b = true ∨ lexLe b a = true := by
  induction a with
  | nil => intro b; left; simp [lexLe]
  | cons c cs ih =>
    intro b
    cases b with
    | nil => right; simp [lexLe]
    | cons d ds =>
      by_cases h1 : c.toNat < d.toNat
      · left; simp [lexLe, h1]
      · by_cases h2 : d.toNat < c.toNat
        · right; simp [lexLe, h2]
        · rcases ih ds with h | h
          · left; simp [lexLe, h1, h2, h]
          · right; simp [lexLe, h1, h2, h]

theorem lexLe_trans (a : List Char) :
    ∀ b c : List Char, lexLe a b = true → lexLe b c = true →
      lexLe a c = true := by
  induction a with
  | nil => intro b c h1 h2; simp [lexLe]
  | cons x xs ih =>
    intro b c h1 h2
    cases b with
    | nil => simp [lexLe] at h1
    | cons y ys =>
      cases c with
      | nil => simp [lexLe] at h2
      | cons z zs =>
        simp only [lexLe] at h1 h2 ⊢
        split_ifs at h1 h2 ⊢ <;>
          first
          | rfl
          | omega
          | exact ih ys zs h1 h2

instance strLeR.isTotal : IsTotal String strLeR :=
  ⟨fun a b => lexLe_total a.data b.data⟩

instance strLeR.isTrans : IsTrans String strLeR :=
  ⟨fun a b c h1 h2 => lexLe_trans a.data b.data c.data h1 h2⟩

/-- mountTypesRc output is sorted with respect to the lexicographic order. -/
theorem sortStrings_sorted (xs : List String) :
    List.Sorted strLeR (sortStrings xs) :=
  List.sorted_insertionSort strLeR xs

/-- mountTypesRc output is a permutation of the registered names. -/
theorem sortStrings_perm (xs : List String) :
    List.Perm (sortStrings xs) xs :=
  List.perm_insertionSort strLeR xs

theorem mapLookup_erase_self {α : Type} (m : List (String × α)) (k : String) :
    mapLookup (mapErase m k) k = none := by
  induction m with
  | nil => simp [mapErase, mapLookup]
  | cons hd tl ih =>
    obtain ⟨k1, v1⟩ := hd
    by_cases h : k1 = k
    · simp [mapErase, mapLookup, h, ih]
    · simp [mapErase, mapLookup, h, ih]

/-! Concrete fixtures used to instantiate the theorems. -/

/-- Teardown capability that succeeds. -/
def tdOK : UnmountFn := { id := 1, result := none }

/-- Backend whose mount succeeds and hands back the succeeding teardown. -/
def fnMountOK : MountFn := { id := 10, run := fun _ _ => (some tdOK, none) }

/-- Backend whose mount fails, returning a nil unmount function and an error
(the shape a failing FUSE mount produces). -/
def fnMountFail : MountFn :=
  { id := 11, run := fun _ _ => (none, some "mount failed: boom") }

/-- Resolver standing in for rc.GetFs, always succeeding. -/
def getFsDemo : Params → Except Err Fs :=
  fun _ => Except.ok { name := "mydrive" }

/-- Request parameters carrying fs and mountPoint but no mountType. -/
def paramsDemo : Params := [("fs", "mydrive:"), ("mountPoint", "/mnt/demo")]

/-- State with the succeeding backend registered under "mount". -/
def stateWithMount : State := (AddRc "mount" fnMountOK initState).1

/-- State with the failing backend registered under "mount". -/
def stateWithFail : State := (AddRc "mount" fnMountFail initState).1

/-- State with only the "cmount" backend registered. -/
def stateWithCmount : State := (AddRc "cmount" fnMountOK initState).1

/-- Teardown capability that fails. -/
def tdBad : UnmountFn := { id := 2, result := some "umount: device is busy" }

/-- State holding an active mount at /mnt/e whose teardown fails. -/
def stateWithBadTd : State :=
  { mountFns := [],
    liveMounts := [("/mnt/e",
      { unmountFn := some tdBad, mountPoint := "/mnt/e", mountedOn := 5,
        fsName := "mydrive" })],
    now := 5, calls := [] }

/-! Helper lemmas about the registry traces. -/

theorem invokeBackend_not_mem_resolveTrace (fns : List (String × MountFn))
    (k : String) : Ev.invokeBackend k ∉ resolveTrace fns := by
  unfold resolveTrace
  split_ifs <;> simp

theorem invokeBackend_not_mem_mountRcTypeTrace (p : Params) (s : State)
    (k : String) : Ev.invokeBackend k ∉ mountRcTypeTrace p s := by
  unfold mountRcTypeTrace
  split
  · exact invokeBackend_not_mem_resolveTrace _ _
  · split
    · exact invokeBackend_not_mem_resolveTrace _ _
    · simp

theorem lockFns_not_mem_resolveTrace (fns : List (String × MountFn)) :
    Ev.lockFns ∉ resolveTrace fns := by
  unfold resolveTrace
  split_ifs <;> simp

theorem lockFns_not_mem_mountRcTypeTrace (p : Params) (s : State) :
    Ev.lockFns ∉ mountRcTypeTrace p s := by
  unfold mountRcTypeTrace
  split
  · exact lockFns_not_mem_resolveTrace _
  · split
    · exact lockFns_not_mem_resolveTrace _
    · simp

theorem mountRc_never_locks (getFs : Params → Except Err Fs) (p : Params)
    (s : State) : Ev.lockFns ∉ (mountRc getFs p s).2.2 := by
  unfold mountRc
  split
  · simp
  · split
    · exact lockFns_not_mem_mountRcTypeTrace p s
    · split
      · dsimp only
        split <;>
          simp [List.mem_append, lockFns_not_mem_mountRcTypeTrace p s]
      · simp [List.mem_append, lockFns_not_mem_mountRcTypeTrace p s]

/-! Theorems settling the claims. -/

/-- C1: whenever mountRc resolves a registered backend and invokes it, a
MountInfo record (teardown capability as returned, timestamp = now, source
display name, mount point) is inserted into liveMounts at the mount point
even when the invocation returned an error; in that case the backend's error
is returned to the caller and the inserted record remains. -/
theorem mountRc_inserts_record_even_on_error
    (getFs : Params → Except Err Fs) (p : Params) (s : State)
    (mp : String) (fdst : Fs) (fn : MountFn) (uf : Option UnmountFn) (e : Err)
    (hmp : getString p "mountPoint" = Except.ok mp)
    (hfs : getFs p = Except.ok fdst)
    (hfn : mapLookup s.mountFns (mountRcType p s) = some fn)
    (hrun : fn.run fdst mp = (uf, some e)) :
    (mountRc getFs p s).1 = RcResult.err e ∧
    mapLookup (mountRc getFs p s).2.1.liveMounts mp =
      some { unmountFn := uf, mountPoint := mp, mountedOn := s.now,
             fsName := fdst.name } := by
  simp only [mountRc, hmp, hfs, hfn, hrun]
  simp [mapLookup_insert_self]

/-- C1 witness: a failing backend registered under "mount" leaves a record
with a nil teardown at the mount point, and its error is returned. -/
theorem mountRc_inserts_record_even_on_error_witness :
    (mountRc getFsDemo paramsDemo stateWithFail).1 =
      RcResult.err "mount failed: boom" ∧
    mapLookup (mountRc getFsDemo paramsDemo stateWithFail).2.1.liveMounts
        "/mnt/demo" =
      some { unmountFn := none, mountPoint := "/mnt/demo", mountedOn := 0,
             fsName := "mydrive" } :=
  mountRc_inserts_record_even_on_error getFsDemo paramsDemo stateWithFail
    "/mnt/demo" { name := "mydrive" } fnMountFail none "mount failed: boom"
    rfl rfl rfl rfl

/-- C2: performUnMount invokes the stored teardown capability without any
nil guard: on a record holding a nil capability the outcome is a
nil-function invocation (runtime panic), not a returned error. -/
theorem performUnMount_nil_capability_panics
    (mp : String) (s : State) (info : MountInfo)
    (hlk : mapLookup s.liveMounts mp = some info)
    (hnil : info.unmountFn = none) :
    performUnMount mp s = (RcResult.nilPanic, s) := by
  simp only [performUnMount, hlk, hnil]

/-- C2 witness: the state a failed mountRc leaves behind makes the following
performUnMount a nil-function invocation. -/
theorem performUnMount_nil_capability_panics_witness :
    performUnMount "/mnt/demo"
        (mountRc getFsDemo paramsDemo stateWithFail).2.1 =
      (RcResult.nilPanic, (mountRc getFsDemo paramsDemo stateWithFail).2.1) :=
  performUnMount_nil_capability_panics "/mnt/demo"
    (mountRc getFsDemo paramsDemo stateWithFail).2.1
    { unmountFn := none, mountPoint := "/mnt/demo", mountedOn := 0,
      fsName := "mydrive" }
    rfl rfl

/-- C3: when the resolved mount type is not registered, mountRc fails with
the invalid-backend error, the state is unchanged (in particular liveMounts
gains no record), and no backend capability is invoked. -/
theorem mountRc_invalid_backend_no_record
    (getFs : Params → Except Err Fs) (p : Params) (s : State)
    (mp : String) (fdst : Fs)
    (hmp : getString p "mountPoint" = Except.ok mp)
    (hfs : getFs p = Except.ok fdst)
    (hfn : mapLookup s.mountFns (mountRcType p s) = none) :
    (mountRc getFs p s).1 = RcResult.err invalidBackendMsg ∧
    (mountRc getFs p s).2.1 = s ∧
    ∀ k, Ev.invokeBackend k ∉ (mountRc getFs p s).2.2 := by
  simp only [mountRc, hmp, hfs, hfn]
  refine ⟨trivial, trivial, fun k => ?_⟩
  simp [List.mem_append, invokeBackend_not_mem_mountRcTypeTrace p s k]

/-- C3 witness: with an empty registry and an explicit bogus mountType, the
call fails with the invalid-backend error and nothing changes. -/
theorem mountRc_invalid_backend_no_record_witness :
    (mountRc getFsDemo (("mountType", "bogus") :: paramsDemo) initState).1 =
      RcResult.err invalidBackendMsg ∧
    (mountRc getFsDemo (("mountType", "bogus") :: paramsDemo) initState).2.1 =
      initState ∧
    ∀ k, Ev.invokeBackend k ∉
      (mountRc getFsDemo (("mountType", "bogus") :: paramsDemo)
        initState).2.2 :=
  mountRc_invalid_backend_no_record getFsDemo
    (("mountType", "bogus") :: paramsDemo) initState
    "/mnt/demo" { name := "mydrive" } rfl rfl rfl

/-- C4: with an absent or empty mountType parameter, mountRc selects the
mount type by probing the registry for "mount", then "cmount", then
"mount2"; when only "cmount" is registered the selection is "cmount"; when
none of the three is registered the selection is empty and (the empty string
not being a registered name) the lookup fails with the invalid-backend
error. -/
theorem mountRc_fallback_selection
    (getFs : Params → Except Err Fs) (p : Params) (s : State)
    (hty : getString p "mountType" = Except.ok "" ∨
           ∃ e, getString p "mountType" = Except.error e) :
    mountRcType p s = resolveMountType s.mountFns ∧
    (mapLookup s.mountFns "mount" = none →
      (mapLookup s.mountFns "cmount").isSome = true →
      resolveMountType s.mountFns = "cmount") ∧
    (mapLookup s.mountFns "mount" = none →
      mapLookup s.mountFns "cmount" = none →
      mapLookup s.mountFns "mount2" = none →
      resolveMountType s.mountFns = "" ∧
      (mapLookup s.mountFns "" = none →
        ∀ mp fdst, getString p "mountPoint" = Except.ok mp →
          getFs p = Except.ok fdst →
          (mountRc getFs p s).1 = RcResult.err invalidBackendMsg)) := by
  have hsel : mountRcType p s = resolveMountType s.mountFns := by
    unfold mountRcType
    rcases hty with h | ⟨e, h⟩ <;> simp [h]
  refine ⟨hsel, ?_, ?_⟩
  · intro h1 h2
    unfold resolveMountType
    rw [h1]
    simp [h2]
  · intro h1 h2 h3
    have hres : resolveMountType s.mountFns = "" := by
      unfold resolveMountType
      simp [h1, h2, h3]
    refine ⟨hres, ?_⟩
    intro hempty mp fdst hmp hfs
    have hl : mapLookup s.mountFns (mountRcType p s) = none := by
      rw [hsel, hres]
      exact hempty
    simp only [mountRc, hmp, hfs, hl]

/-- C4 witness: with mountType omitted and only "cmount" registered the
selection is "cmount"; with an empty registry the call fails with the
invalid-backend error. -/
theorem mountRc_fallback_selection_witness :
    mountRcType paramsDemo stateWithCmount = "cmount" ∧
    (mountRc getFsDemo paramsDemo initState).1 =
      RcResult.err invalidBackendMsg := by
  constructor
  · have h := mountRc_fallback_selection getFsDemo paramsDemo stateWithCmount
      (Or.inr ⟨_, rfl⟩)
    rw [h.1]
    exact h.2.1 rfl rfl
  · have h := mountRc_fallback_selection getFsDemo paramsDemo initState
      (Or.inr ⟨_, rfl⟩)
    exact (h.2.2 rfl rfl rfl).2 rfl "/mnt/demo" { name := "mydrive" } rfl rfl

/-- C5: performUnMount on a path with no record fails with the not-found
error and leaves the state unchanged; consequently, after a successful
performUnMount of a path, an immediately following performUnMount of the
same path fails with the not-found error and changes nothing. -/
theorem performUnMount_notFound_and_double (mp : String) (s : State) :
    (mapLookup s.liveMounts mp = none →
      performUnMount mp s = (RcResult.err notFoundMsg, s)) ∧
    (∀ s1, performUnMount mp s = (RcResult.ok, s1) →
      performUnMount mp s1 = (RcResult.err notFoundMsg, s1)) := by
  constructor
  · intro h
    simp only [performUnMount, h]
  · intro s1 h
    cases hlk : mapLookup s.liveMounts mp with
    | none =>
      simp only [performUnMount, hlk] at h
      exact absurd (congrArg Prod.fst h) (by simp)
    | some info =>
      cases hf : info.unmountFn with
      | none =>
        simp only [performUnMount, hlk, hf] at h
        exact absurd (congrArg Prod.fst h) (by simp)
      | some f =>
        cases hr : f.result with
        | some e =>
          simp only [performUnMount, hlk, hf, hr] at h
          exact absurd (congrArg Prod.fst h) (by simp)
        | none =>
          simp only [performUnMount, hlk, hf, hr] at h
          have hs1 : s1 =
              { s with calls := s.calls ++ [f.id],
                       liveMounts := mapErase s.liveMounts mp } := by
            have := congrArg Prod.snd h
            simpa using this.symm
          subst hs1
          simp only [performUnMount, mapLookup_erase_self]

/-- C5 witness: the empty directory yields not-found, and after a successful
unmount of the round-trip state the second unmount yields not-found. -/
theorem performUnMount_notFound_and_double_witness :
    performUnMount "/mnt/demo" initState =
      (RcResult.err notFoundMsg, initState) ∧
    performUnMount "/mnt/demo"
        (performUnMount "/mnt/demo"
          (mountRc getFsDemo paramsDemo stateWithMount).2.1).2 =
      (RcResult.err notFoundMsg,
       (performUnMount "/mnt/demo"
         (mountRc getFsDemo paramsDemo stateWithMount).2.1).2) :=
  ⟨(performUnMount_notFound_and_double "/mnt/demo" initState).1 rfl,
   (performUnMount_notFound_and_double "/mnt/demo"
      (mountRc getFsDemo paramsDemo stateWithMount).2.1).2
     (performUnMount "/mnt/demo"
       (mountRc getFsDemo paramsDemo stateWithMount).2.1).2 rfl⟩

/-- C6: when the stored teardown capability returns an error, performUnMount
surfaces that error unchanged and leaves the record in place (liveMounts is
unchanged, only the invocation log grows); and in general the record is
removed only when the invocation returns success. -/
theorem performUnMount_error_keeps_record (mp : String) (s : State) :
    (∀ info f e, mapLookup s.liveMounts mp = some info →
      info.unmountFn = some f → f.result = some e →
      performUnMount mp s =
        (RcResult.err e, { s with calls := s.calls ++ [f.id] })) ∧
    ((performUnMount mp s).1 ≠ RcResult.ok →
      (performUnMount mp s).2.liveMounts = s.liveMounts) := by
  constructor
  · intro info f e hlk hf hr
    simp only [performUnMount, hlk, hf, hr]
  · intro h
    cases hlk : mapLookup s.liveMounts mp with
    | none => simp [performUnMount, hlk]
    | some info =>
      cases hf : info.unmountFn with
      | none => simp [performUnMount, hlk, hf]
      | some f =>
        cases hr : f.result with
        | some e => simp [performUnMount, hlk, hf, hr]
        | none =>
          exfalso
          apply h
          simp [performUnMount, hlk, hf, hr]

/-- C6 witness: a teardown that fails leaves the record in place and its
error is returned. -/
theorem performUnMount_error_keeps_record_witness :
    performUnMount "/mnt/e" stateWithBadTd =
      (RcResult.err "umount: device is busy",
       { stateWithBadTd with calls := [2] }) ∧
    (performUnMount "/mnt/e" stateWithBadTd).2.liveMounts =
      stateWithBadTd.liveMounts :=
  ⟨(performUnMount_error_keeps_record "/mnt/e" stateWithBadTd).1
     { unmountFn := some tdBad, mountPoint := "/mnt/e", mountedOn := 5,
       fsName := "mydrive" }
     tdBad "umount: device is busy" rfl rfl rfl,
   (performUnMount_error_keeps_record "/mnt/e" stateWithBadTd).2
     (by decide)⟩

/-- C7: a successful mountRc followed by a performUnMount whose teardown
succeeds leaves liveMounts with no record for the mount point, and the
teardown capability stored by the mount is invoked exactly once across the
two operations. -/
theorem mount_unmount_roundtrip
    (getFs : Params → Except Err Fs) (p : Params) (s : State)
    (mp : String) (fdst : Fs) (fn : MountFn) (f : UnmountFn)
    (hmp : getString p "mountPoint" = Except.ok mp)
    (hfs : getFs p = Except.ok fdst)
    (hfn : mapLookup s.mountFns (mountRcType p s) = some fn)
    (hrun : fn.run fdst mp = (some f, none))
    (hres : f.result = none) :
    (mountRc getFs p s).1 = RcResult.ok ∧
    (mountRc getFs p s).2.1.calls = s.calls ∧
    (performUnMount mp (mountRc getFs p s).2.1).1 = RcResult.ok ∧
    mapLookup (performUnMount mp (mountRc getFs p s).2.1).2.liveMounts
      mp = none ∧
    (performUnMount mp (mountRc getFs p s).2.1).2.calls =
      s.calls ++ [f.id] ∧
    ((performUnMount mp (mountRc getFs p s).2.1).2.calls).count f.id =
      s.calls.count f.id + 1 := by
  have hstate : (mountRc getFs p s).2.1 =
      { s with liveMounts := mapInsert s.liveMounts mp (⟨some f, mp, s.now, fdst.name⟩ : MountInfo) } := by
    simp only [mountRc, hmp, hfs, hfn, hrun]
  have hr1 : (mountRc getFs p s).1 = RcResult.ok := by
    simp only [mountRc, hmp, hfs, hfn, hrun]
  have hpu : performUnMount mp (mountRc getFs p s).2.1 =
      (RcResult.ok,
       { s with calls := s.calls ++ [f.id],
                liveMounts := mapErase (mapInsert s.liveMounts mp (⟨some f, mp, s.now, fdst.name⟩ : MountInfo)) mp }) := by
    rw [hstate]
    simp only [performUnMount, mapLookup_insert_self, hres]
  refine ⟨hr1, ?_, ?_, ?_, ?_, ?_⟩
  · rw [hstate]
  · rw [hpu]
  · rw [hpu]
    exact mapLookup_erase_self _ _
  · rw [hpu]
  · rw [hpu]
    simp [List.count_append]

/-- C7 witness: the round trip on the succeeding backend removes the record
at the mount point and invokes teardown capability 1 exactly once. -/
theorem mount_unmount_roundtrip_witness :
    (mountRc getFsDemo paramsDemo stateWithMount).1 = RcResult.ok ∧
    (mountRc getFsDemo paramsDemo stateWithMount).2.1.calls = [] ∧
    (performUnMount "/mnt/demo"
        (mountRc getFsDemo paramsDemo stateWithMount).2.1).1 =
      RcResult.ok ∧
    mapLookup (performUnMount "/mnt/demo"
        (mountRc getFsDemo paramsDemo stateWithMount).2.1).2.liveMounts
      "/mnt/demo" = none ∧
    (performUnMount "/mnt/demo"
        (mountRc getFsDemo paramsDemo stateWithMount).2.1).2.calls = [1] ∧
    ((performUnMount "/mnt/demo"
        (mountRc getFsDemo paramsDemo stateWithMount).2.1).2.calls).count
        1 = 1 :=
  mount_unmount_roundtrip getFsDemo paramsDemo stateWithMount "/mnt/demo"
    { name := "mydrive" } fnMountOK tdOK rfl rfl rfl rfl rfl

/-- C8: mountTypesRc never returns an error, and its result field carries
the complete set of registered names (a permutation of the registry's keys)
sorted lexicographically; registering "mount2", "mount", "cmount" in that
order yields the listing ["cmount", "mount", "mount2"], and the empty
registry yields the empty sequence, not an error. -/
theorem mountTypesRc_sorted_complete (s : State) :
    (mountTypesRc s).2.1 = none ∧
    (mountTypesRc s).1 =
      [("mountTypes", OutVal.strs (sortStrings (mapKeys s.mountFns)))] ∧
    List.Perm (sortStrings (mapKeys s.mountFns)) (mapKeys s.mountFns) ∧
    List.Sorted strLeR (sortStrings (mapKeys s.mountFns)) ∧
    (mountTypesRc (AddRc "cmount" fnMountOK
        ((AddRc "mount" fnMountOK
          ((AddRc "mount2" fnMountOK initState).1)).1)).1).1 =
      [("mountTypes", OutVal.strs ["cmount", "mount", "mount2"])] ∧
    (mountTypesRc initState).1 = [("mountTypes", OutVal.strs [])] ∧
    (mountTypesRc initState).2.1 = none := by
  refine ⟨rfl, rfl, sortStrings_perm _, sortStrings_sorted _, ?_, rfl, rfl⟩
  decide

/-- C9 counterexample: the result fields are named mountTypes and
mountPoints in the code, not types and mounts as the claim states: at the
initial state neither operation returns a field named types or mounts. -/
theorem list_result_field_names_counterexample :
    (mountTypesRc initState).1.map Prod.fst = ["mountTypes"] ∧
    (listMountsRc initState).1.map Prod.fst = ["mountPoints"] ∧
    "types" ∉ (mountTypesRc initState).1.map Prod.fst ∧
    "mounts" ∉ (listMountsRc initState).1.map Prod.fst := by
  decide

/-- C9 amended: mountTypesRc returns its sequence of backend names under the
result field named mountTypes, and listMountsRc returns its records, each
projected to the serialized fields MountPoint, MountedOn and Fs, under the
result field named mountPoints. -/
theorem list_result_field_names (s : State) :
    (mountTypesRc s).1 =
      [("mountTypes", OutVal.strs (sortStrings (mapKeys s.mountFns)))] ∧
    (listMountsRc s).1 =
      [("mountPoints",
        OutVal.mounts (s.liveMounts.map (fun kv => kv.2.public)))] :=
  ⟨rfl, rfl⟩

/-- C10 counterexample: a mountRc call with "mount" registered reads the
registry map during resolution and lookup with the registry lock never
held — its trace consists of unlocked reads and the backend invocation and
fails the lock discipline. -/
theorem registry_lock_counterexample :
    (mountRc getFsDemo paramsDemo stateWithMount).2.2 =
      [Ev.readFns "mount", Ev.readFns "mount", Ev.readFns "mount",
       Ev.invokeBackend "mount"] ∧
    locksRespected false
      (mountRc getFsDemo paramsDemo stateWithMount).2.2 = false := by
  decide

/-- C10 amended: AddRc's registry mutation and mountTypesRc's registry read
hold mountFnsMutex only for the duration of the map access and never across
a backend invocation; mountRc, by contrast, never acquires the registry
lock, so its registry reads during backend resolution and lookup and its
backend invocation run unlocked. -/
theorem registry_lock_discipline
    (name : String) (fn : MountFn) (s s1 s2 : State)
    (getFs : Params → Except Err Fs) (p : Params) :
    (AddRc name fn s).2 = [Ev.lockFns, Ev.writeFns name, Ev.unlockFns] ∧
    locksRespected false (AddRc name fn s).2 = true ∧
    (mountTypesRc s1).2.2 = [Ev.lockFns, Ev.rangeFns, Ev.unlockFns] ∧
    locksRespected false (mountTypesRc s1).2.2 = true ∧
    Ev.lockFns ∉ (mountRc getFs p s2).2.2 :=
  ⟨rfl, rfl, rfl, rfl, mountRc_never_locks getFs p s2⟩

end Mountlib
